import Mathlib

/-!
Verification of the drips-js-sdk receiver-list canonicalization and
validation core, shallowly embedded in Lean 4.

Sources embedded here:
- `src/AddressApp/AddressAppClient.ts` (`#formatDripsReceivers`,
  `#formatSplitReceivers`, `setDrips`, `setSplits`);
- `src/common/validators.ts` (`validateDripsReceiverConfig`,
  `validateDripsReceivers`, `validateSplitsReceivers`);
- `src/common/DripsError.ts` (`DripsErrorCode`, the `DripsErrors` factories);
- `src/DripsSubgraph/DripsSubgraphClient.ts` (`getUsersStreamingToUser`);
- `src/DripsSubgraph/AccountEstimator.ts` (`estimate`, `refreshAccount`).

Modelling conventions:
- JavaScript `Array.prototype.reduce` with a `some`/`push` accumulator is
  embedded as a `List.foldl`.
- `Array.prototype.sort(cmp)` (stable per ECMAScript 2019) is embedded as
  `List.insertionSort` over the non-strict relation `cmp a b ≤ 0`: for a
  consistent comparator the stable sorted order is unique and insertion
  sort with the non-strict relation computes it.
- `ethers.BigNumber` values are embedded as `Nat`: user IDs and packed
  configs are non-negative 256-bit integers.  `toBN` on a decimal string
  is decimal parsing; theorems about the canonicalizer carry a
  well-formedness hypothesis restricting user IDs to decimal strings,
  the only inputs on which `BigNumber.from` does not throw.
- Synchronously thrown `DripsError`s are embedded with `Except`.
-/

/-! ### Generic JavaScript list idioms -/

/-- One step of the dedup `reduce` used throughout the SDK:
`if (!unique.some(eq-to-o)) unique.push(o); return unique;`.
On the embedded types the JS element equality used by the SDK
(strict `===` on user-id strings / bigints together with big-number
equality on configs) is exactly structural equality, so the predicate
`unique.some(...)` is a membership test. -/
def dedupStep {α : Type} [DecidableEq α] (unique : List α) (o : α) : List α :=
  if o ∈ unique then unique else unique ++ [o]

/-- `receivers.reduce((unique, o) => { if (!unique.some(...)) unique.push(o); return unique; }, [])`. -/
def jsDedup {α : Type} [DecidableEq α] (l : List α) : List α :=
  l.foldl dedupStep []

/-- Specification-side deduplication: keep the first occurrence of every
element, in order of first discovery. -/
def keepFirsts {α : Type} [DecidableEq α] : List α → List α
  | [] => []
  | a :: l => a :: keepFirsts (l.filter (fun b => decide (b ≠ a)))
termination_by l => l.length
decreasing_by
  simp only [List.length_cons]
  exact Nat.lt_succ_of_le (List.length_filter_le _ _)

theorem keepFirsts_nil {α : Type} [DecidableEq α] : keepFirsts ([] : List α) = [] := by
  rw [keepFirsts]

theorem keepFirsts_cons {α : Type} [DecidableEq α] (a : α) (l : List α) :
    keepFirsts (a :: l) = a :: keepFirsts (l.filter (fun b => decide (b ≠ a))) := by
  rw [keepFirsts]

/-- Unfolding the dedup fold past an arbitrary accumulator prefix. -/
theorem foldl_dedupStep_eq {α : Type} [DecidableEq α] :
    ∀ (n : Nat) (l : List α), l.length ≤ n → ∀ u : List α,
      l.foldl dedupStep u = u ++ (l.filter (fun x => decide (x ∉ u))).foldl dedupStep [] := by
  intro n
  induction n with
  | zero =>
    intro l hl u
    have : l = [] := List.length_eq_zero.mp (Nat.le_zero.mp hl)
    subst this
    simp
  | succ n ih =>
    intro l hl u
    match l with
    | [] => simp
    | x :: t =>
      have ht : t.length ≤ n := Nat.le_of_succ_le_succ hl
      by_cases hx : x ∈ u
      · have hstep : dedupStep u x = u := by simp [dedupStep, hx]
        have hfilter : (x :: t).filter (fun y => decide (y ∉ u)) =
            t.filter (fun y => decide (y ∉ u)) := by
          simp [List.filter_cons, hx]
        rw [List.foldl_cons, hstep, hfilter]
        exact ih t ht u
      · have hstep : dedupStep u x = u ++ [x] := by simp [dedupStep, hx]
        have hfilter : (x :: t).filter (fun y => decide (y ∉ u)) =
            x :: t.filter (fun y => decide (y ∉ u)) := by
          simp [List.filter_cons, hx]
        rw [List.foldl_cons, hstep, hfilter, List.foldl_cons]
        have hstep0 : dedupStep ([] : List α) x = [x] := by simp [dedupStep]
        rw [hstep0]
        have h1 := ih t ht (u ++ [x])
        have h2 := ih (t.filter (fun y => decide (y ∉ u)))
          (Nat.le_trans (List.length_filter_le _ _) ht) [x]
        have hff : (t.filter (fun y => decide (y ∉ u))).filter
            (fun y => decide (y ∉ ([x] : List α))) =
            t.filter (fun y => decide (y ∉ u ++ [x])) := by
          rw [List.filter_filter]
          apply List.filter_congr
          intro a _
          by_cases ha : a ∈ u <;> by_cases hax : a = x <;>
            simp [ha, hax, List.mem_append]
        rw [h1, h2, hff, List.append_assoc]

/-- The SDK dedup fold keeps exactly the first occurrences, in discovery order. -/
theorem jsDedup_eq_keepFirsts {α : Type} [DecidableEq α] (l : List α) :
    jsDedup l = keepFirsts l := by
  have main : ∀ (n : Nat) (l : List α), l.length ≤ n → jsDedup l = keepFirsts l := by
    intro n
    induction n with
    | zero =>
      intro l hl
      have : l = [] := List.length_eq_zero.mp (Nat.le_zero.mp hl)
      subst this
      rw [keepFirsts_nil]; rfl
    | succ n ih =>
      intro l hl
      match l with
      | [] => rw [keepFirsts_nil]; rfl
      | a :: t =>
        have ht : t.length ≤ n := Nat.le_of_succ_le_succ hl
        have step1 : jsDedup (a :: t) = t.foldl dedupStep [a] := by
          simp [jsDedup, dedupStep]
        have step2 : t.foldl dedupStep [a] =
            [a] ++ (t.filter (fun x => decide (x ∉ ([a] : List α)))).foldl dedupStep [] :=
          foldl_dedupStep_eq (n := t.length) t (Nat.le_refl _) [a]
        have hpred : t.filter (fun x => decide (x ∉ ([a] : List α))) =
            t.filter (fun b => decide (b ≠ a)) := by
          apply List.filter_congr
          intro b _
          simp [List.mem_singleton]
        have hrec : jsDedup (t.filter (fun b => decide (b ≠ a))) =
            keepFirsts (t.filter (fun b => decide (b ≠ a))) :=
          ih _ (Nat.le_trans (List.length_filter_le _ _) ht)
        rw [step1, step2, hpred, keepFirsts_cons]
        simpa [jsDedup] using hrec
  exact main l.length l (Nat.le_refl _)

theorem mem_keepFirsts {α : Type} [DecidableEq α] :
    ∀ (l : List α) (x : α), x ∈ keepFirsts l ↔ x ∈ l := by
  have main : ∀ (n : Nat) (l : List α), l.length ≤ n → ∀ x : α,
      (x ∈ keepFirsts l ↔ x ∈ l) := by
    intro n
    induction n with
    | zero =>
      intro l hl x
      have : l = [] := List.length_eq_zero.mp (Nat.le_zero.mp hl)
      subst this
      rw [keepFirsts_nil]
    | succ n ih =>
      intro l hl x
      match l with
      | [] => rw [keepFirsts_nil]
      | a :: t =>
        have ht : t.length ≤ n := Nat.le_of_succ_le_succ hl
        rw [keepFirsts_cons, List.mem_cons, List.mem_cons,
          ih _ (Nat.le_trans (List.length_filter_le _ _) ht)]
        constructor
        · rintro (rfl | hx)
          · exact Or.inl rfl
          · exact Or.inr (List.mem_of_mem_filter hx)
        · rintro (rfl | hx)
          · exact Or.inl rfl
          · by_cases hxa : x = a
            · exact Or.inl hxa
            · exact Or.inr (List.mem_filter.mpr ⟨hx, by simp [hxa]⟩)
  intro l x
  exact main l.length l (Nat.le_refl _) x

theorem nodup_keepFirsts {α : Type} [DecidableEq α] :
    ∀ l : List α, (keepFirsts l).Nodup := by
  have main : ∀ (n : Nat) (l : List α), l.length ≤ n → (keepFirsts l).Nodup := by
    intro n
    induction n with
    | zero =>
      intro l hl
      have : l = [] := List.length_eq_zero.mp (Nat.le_zero.mp hl)
      subst this
      rw [keepFirsts_nil]; exact List.nodup_nil
    | succ n ih =>
      intro l hl
      match l with
      | [] => rw [keepFirsts_nil]; exact List.nodup_nil
      | a :: t =>
        have ht : t.length ≤ n := Nat.le_of_succ_le_succ hl
        rw [keepFirsts_cons]
        refine List.nodup_cons.mpr ⟨?_, ih _ (Nat.le_trans (List.length_filter_le _ _) ht)⟩
        intro hmem
        have := List.mem_filter.mp ((mem_keepFirsts _ _).mp hmem)
        simp at this
  intro l
  exact main l.length l (Nat.le_refl _)

theorem keepFirsts_sublist {α : Type} [DecidableEq α] :
    ∀ l : List α, List.Sublist (keepFirsts l) l := by
  have main : ∀ (n : Nat) (l : List α), l.length ≤ n → List.Sublist (keepFirsts l) l := by
    intro n
    induction n with
    | zero =>
      intro l hl
      have : l = [] := List.length_eq_zero.mp (Nat.le_zero.mp hl)
      subst this
      rw [keepFirsts_nil]
    | succ n ih =>
      intro l hl
      match l with
      | [] => rw [keepFirsts_nil]
      | a :: t =>
        have ht : t.length ≤ n := Nat.le_of_succ_le_succ hl
        rw [keepFirsts_cons]
        exact List.Sublist.cons₂ a
          ((ih _ (Nat.le_trans (List.length_filter_le _ _) ht)).trans
            (List.filter_sublist t))
  intro l
  exact main l.length l (Nat.le_refl _)

theorem keepFirsts_eq_self_of_nodup {α : Type} [DecidableEq α] :
    ∀ l : List α, l.Nodup → keepFirsts l = l := by
  have main : ∀ (n : Nat) (l : List α), l.length ≤ n → l.Nodup → keepFirsts l = l := by
    intro n
    induction n with
    | zero =>
      intro l hl _
      have : l = [] := List.length_eq_zero.mp (Nat.le_zero.mp hl)
      subst this
      rw [keepFirsts_nil]
    | succ n ih =>
      intro l hl hnd
      match l with
      | [] => rw [keepFirsts_nil]
      | a :: t =>
        have ht : t.length ≤ n := Nat.le_of_succ_le_succ hl
        obtain ⟨ha, hndt⟩ := List.nodup_cons.mp hnd
        have hfilter : t.filter (fun b => decide (b ≠ a)) = t := by
          apply List.filter_eq_self.mpr
          intro b hb
          simp only [decide_eq_true_eq]
          intro hba
          exact ha (hba ▸ hb)
        rw [keepFirsts_cons, hfilter, ih t ht hndt]
  intro l hnd
  exact main l.length l (Nat.le_refl _) hnd

theorem jsDedup_nodup {α : Type} [DecidableEq α] (l : List α) : (jsDedup l).Nodup := by
  rw [jsDedup_eq_keepFirsts]; exact nodup_keepFirsts l

theorem mem_jsDedup {α : Type} [DecidableEq α] (l : List α) (x : α) :
    x ∈ jsDedup l ↔ x ∈ l := by
  rw [jsDedup_eq_keepFirsts]; exact mem_keepFirsts l x

/-- Two lists with the same elements, each without duplicates, are permutations;
hence so are their dedups when the originals are permutations. -/
theorem jsDedup_perm_of_perm {α : Type} [DecidableEq α] {l₁ l₂ : List α}
    (h : l₁.Perm l₂) : (jsDedup l₁).Perm (jsDedup l₂) := by
  refine (List.perm_ext_iff_of_nodup (jsDedup_nodup l₁) (jsDedup_nodup l₂)).mpr ?_
  intro x
  rw [mem_jsDedup, mem_jsDedup]
  exact h.mem_iff

/-- Sorted lists that are permutations of each other and whose elements the
order relation separates are equal (an element-local antisymmetry suffices). -/
theorem eq_of_perm_of_sorted_on {α : Type} {r : α → α → Prop} :
    ∀ (l₁ l₂ : List α), l₁.Perm l₂ → l₁.Sorted r → l₂.Sorted r →
      (∀ a ∈ l₁, ∀ b ∈ l₂, r a b → r b a → a = b) → l₁ = l₂ := by
  intro l₁
  induction l₁ with
  | nil =>
    intro l₂ hp _ _ _
    exact hp.nil_eq
  | cons a t₁ ih =>
    intro l₂ hp hs₁ hs₂ hanti
    match l₂ with
    | [] => exact absurd hp.symm (by simp)
    | b :: t₂ =>
      have hab : a = b := by
        by_cases h : a = b
        · exact h
        · have ha2 : a ∈ b :: t₂ := hp.mem_iff.mp (List.mem_cons_self a t₁)
          have ha2' : a ∈ t₂ := by
            rcases List.mem_cons.mp ha2 with h' | h'
            · exact absurd h' h
            · exact h'
          have hba : r b a := List.rel_of_sorted_cons hs₂ a ha2'
          have hb1 : b ∈ a :: t₁ := hp.symm.mem_iff.mp (List.mem_cons_self b t₂)
          have hb1' : b ∈ t₁ := by
            rcases List.mem_cons.mp hb1 with h' | h'
            · exact absurd h'.symm h
            · exact h'
          have hab' : r a b := List.rel_of_sorted_cons hs₁ b hb1'
          exact hanti a (List.mem_cons_self a t₁) b (List.mem_cons_self b t₂) hab' hba
      subst hab
      have hp' : t₁.Perm t₂ := hp.cons_inv
      have ht : t₁ = t₂ := by
        refine ih t₂ hp' hs₁.of_cons hs₂.of_cons ?_
        intro x hx y hy
        exact hanti x (List.mem_cons_of_mem a hx) y (List.mem_cons_of_mem a hy)
      rw [ht]

/-! ### Data model: receiver structs (`contracts/AddressApp` structs)

`DripsReceiverStruct` is `{ userId: BigNumberish; config: BigNumberish }`
with `userId` a uint256 rendered as a decimal string (spec section 3) and
`config` the packed 256-bit receiver configuration, embedded by its numeric
value since the client only ever compares it through `toBN`. -/

structure DripsReceiverStruct where
  userId : String
  config : Nat
deriving DecidableEq, Repr

/-- `SplitsReceiverStruct` is `{ userId: BigNumberish; weight: BigNumberish }`. -/
structure SplitsReceiverStruct where
  userId : String
  weight : Nat
deriving DecidableEq, Repr

/-- Fold step of decimal parsing: extend the accumulated value by one
digit character, failing on a non-digit. -/
def decDigitStep (acc : Option Nat) (c : Char) : Option Nat :=
  match acc with
  | none => none
  | some n => if 48 ≤ c.toNat ∧ c.toNat ≤ 57 then some (n * 10 + (c.toNat - 48)) else none

/-- Decimal parsing of a non-empty all-digit string, as performed by
`ethers.BigNumber.from` on a string matching its decimal regex; `none`
for inputs on which `BigNumber.from` throws. -/
def parseDecString (s : String) : Option Nat :=
  match s.data with
  | [] => none
  | cs => cs.foldl decDigitStep (some 0)

/-- Modelled from the spec: `toBN` (re-exported from `common/internals.ts`,
which is absent from the sources) is `ethers.BigNumber.from`; on a decimal
string it is decimal parsing.  The model totalizes it with a default of 0;
all canonicalization theorems restrict user IDs to decimal strings, where
parsing succeeds and the default is irrelevant. -/
def toBN (s : String) : Nat :=
  (parseDecString s).getD 0

/-- A user-id string on which `ethers.BigNumber.from` succeeds and which the
model therefore embeds faithfully. -/
def isDecString (s : String) : Bool :=
  (parseDecString s).isSome

/-- Every receiver in the list carries a decimal user-id string. -/
def WfDripsList (l : List DripsReceiverStruct) : Prop :=
  ∀ r ∈ l, isDecString r.userId = true

/-- Every splits receiver in the list carries a decimal user-id string. -/
def WfSplitsList (l : List SplitsReceiverStruct) : Prop :=
  ∀ r ∈ l, isDecString r.userId = true

instance : DecidablePred WfDripsList := fun l =>
  inferInstanceAs (Decidable (∀ r ∈ l, isDecString r.userId = true))

instance : DecidablePred WfSplitsList := fun l =>
  inferInstanceAs (Decidable (∀ r ∈ l, isDecString r.userId = true))

/-- The drips comparator of `#formatDripsReceivers`, verbatim:
sort by user ID (as big numbers), then by config. -/
def dripsCompare (a b : DripsReceiverStruct) : Int :=
  if toBN a.userId > toBN b.userId then 1
  else if toBN a.userId < toBN b.userId then -1
  else if a.config > b.config then 1
  else if a.config < b.config then -1
  else 0

/-- The non-strict order induced by the drips comparator; the stable sort
puts `a` no later than `b` exactly when `dripsCompare a b ≤ 0`. -/
def dripsLe (a b : DripsReceiverStruct) : Prop :=
  dripsCompare a b ≤ 0

instance : DecidableRel dripsLe := fun a b =>
  inferInstanceAs (Decidable (dripsCompare a b ≤ 0))

theorem dripsLe_iff (a b : DripsReceiverStruct) :
    dripsLe a b ↔
      (toBN a.userId < toBN b.userId ∨
        (toBN a.userId = toBN b.userId ∧ a.config ≤ b.config)) := by
  unfold dripsLe dripsCompare
  split_ifs <;> omega

instance : IsTotal DripsReceiverStruct dripsLe :=
  ⟨by intro a b; rw [dripsLe_iff, dripsLe_iff]; omega⟩

instance : IsTrans DripsReceiverStruct dripsLe :=
  ⟨by intro a b c; rw [dripsLe_iff, dripsLe_iff, dripsLe_iff]; omega⟩

/-- The splits comparator of `#formatSplitReceivers`, verbatim:
sort by user ID (as big numbers) only. -/
def splitsCompare (a b : SplitsReceiverStruct) : Int :=
  if toBN a.userId > toBN b.userId then 1
  else if toBN a.userId < toBN b.userId then -1
  else 0

/-- The non-strict order induced by the splits comparator. -/
def splitsLe (a b : SplitsReceiverStruct) : Prop :=
  splitsCompare a b ≤ 0

instance : DecidableRel splitsLe := fun a b =>
  inferInstanceAs (Decidable (splitsCompare a b ≤ 0))

theorem splitsLe_iff (a b : SplitsReceiverStruct) :
    splitsLe a b ↔ toBN a.userId ≤ toBN b.userId := by
  unfold splitsLe splitsCompare
  split_ifs <;> omega

instance : IsTotal SplitsReceiverStruct splitsLe :=
  ⟨by intro a b; rw [splitsLe_iff, splitsLe_iff]; omega⟩

instance : IsTrans SplitsReceiverStruct splitsLe :=
  ⟨by intro a b c; rw [splitsLe_iff, splitsLe_iff, splitsLe_iff]; omega⟩

/-- `AddressAppClient.#formatDripsReceivers`: deduplicate with the
`reduce`/`some`/`push` idiom, where an entry is a duplicate when its
`userId` is strictly (`===`) equal and its config is big-number equal —
on this embedding, structural equality — then stable-sort the fresh
deduplicated array with `dripsCompare`.  The input list is untouched:
the source's `.sort` runs on the new array built by `reduce`, and the
embedding is a pure function of the input value. -/
def formatDripsReceivers (receivers : List DripsReceiverStruct) : List DripsReceiverStruct :=
  List.insertionSort dripsLe (jsDedup receivers)

/-- `AddressAppClient.#formatSplitReceivers`: deduplicate by strictly equal
`userId` and `weight` (structural equality here), then stable-sort the new
array by user ID as big numbers. -/
def formatSplitReceivers (receivers : List SplitsReceiverStruct) : List SplitsReceiverStruct :=
  List.insertionSort splitsLe (jsDedup receivers)

theorem formatDripsReceivers_perm_keepFirsts (l : List DripsReceiverStruct) :
    (formatDripsReceivers l).Perm (keepFirsts l) := by
  unfold formatDripsReceivers
  rw [← jsDedup_eq_keepFirsts]
  exact List.perm_insertionSort dripsLe (jsDedup l)

theorem formatDripsReceivers_sorted (l : List DripsReceiverStruct) :
    (formatDripsReceivers l).Sorted dripsLe :=
  List.sorted_insertionSort dripsLe (jsDedup l)

theorem formatSplitReceivers_perm_keepFirsts (l : List SplitsReceiverStruct) :
    (formatSplitReceivers l).Perm (keepFirsts l) := by
  unfold formatSplitReceivers
  rw [← jsDedup_eq_keepFirsts]
  exact List.perm_insertionSort splitsLe (jsDedup l)

theorem formatSplitReceivers_sorted (l : List SplitsReceiverStruct) :
    (formatSplitReceivers l).Sorted splitsLe :=
  List.sorted_insertionSort splitsLe (jsDedup l)

/-! ### Claims C1-C4: receiver-list canonicalization -/

/-- Claim C1: for every finite drips receiver list (with decimal user-id
strings, the domain on which `toBN` succeeds), `#formatDripsReceivers`
(1) deduplicates by the identity key, keeping the first occurrence in
discovery order, (2) sorts ascending by the numeric value of the user ID
and then by the packed config, compared as big integers, and (3) returns
a new sequence built only from entries of the input, the input list
itself being untouched in this pure embedding (the source sorts the
fresh array built by `reduce`, not its argument). -/
theorem claim_C1 (l : List DripsReceiverStruct) (hwf : WfDripsList l) :
    (formatDripsReceivers l).Perm (keepFirsts l) ∧
    (formatDripsReceivers l).Sorted (fun a b =>
      toBN a.userId < toBN b.userId ∨
        (toBN a.userId = toBN b.userId ∧ a.config ≤ b.config)) ∧
    ∀ x ∈ formatDripsReceivers l, x ∈ l := by
  refine ⟨formatDripsReceivers_perm_keepFirsts l, ?_, ?_⟩
  · exact (formatDripsReceivers_sorted l).imp (fun h => (dripsLe_iff _ _).mp h)
  · intro x hx
    exact (mem_keepFirsts l x).mp ((formatDripsReceivers_perm_keepFirsts l).mem_iff.mp hx)

/-- Witness for C1 at a concrete input with user IDs out of order. -/
theorem claim_C1_witness :
    WfDripsList [⟨"100", 7⟩, ⟨"1", 7⟩, ⟨"50", 7⟩] ∧
    (formatDripsReceivers [⟨"100", 7⟩, ⟨"1", 7⟩, ⟨"50", 7⟩]).Sorted (fun a b =>
      toBN a.userId < toBN b.userId ∨
        (toBN a.userId = toBN b.userId ∧ a.config ≤ b.config)) :=
  ⟨by decide, (claim_C1 [⟨"100", 7⟩, ⟨"1", 7⟩, ⟨"50", 7⟩] (by decide)).2.1⟩

/-- Counterexample to claim C2 as stated: the lists
`[{userId:"01",config:1},{userId:"1",config:1}]` and its permutation
`[{userId:"1",config:1},{userId:"01",config:1}]` canonicalize to
different sequences.  Both user-id strings are valid `BigNumber.from`
inputs denoting the number 1, so deduplication by strict string equality
keeps both entries, the comparator ties on them, and the stable sort
preserves the two different input orders. -/
theorem claim_C2_counterexample :
    WfDripsList [⟨"01", 1⟩, ⟨"1", 1⟩] ∧
    ([⟨"01", 1⟩, ⟨"1", 1⟩] : List DripsReceiverStruct).Perm [⟨"1", 1⟩, ⟨"01", 1⟩] ∧
    formatDripsReceivers [⟨"01", 1⟩, ⟨"1", 1⟩] ≠
      formatDripsReceivers [⟨"1", 1⟩, ⟨"01", 1⟩] :=
  ⟨by decide, by decide, by decide⟩

/-- Claim C2 as amended: canonicalization is order-independent for every
drips receiver list in which entries agreeing on the numeric user ID and
on the config are identical (in particular whenever user IDs are
canonically represented, without leading zeros or mixed representations):
for every permutation P of such a list L, canonicalizing P yields exactly
the output of canonicalizing L. -/
theorem claim_C2_amended (l₁ l₂ : List DripsReceiverStruct) (hwf : WfDripsList l₁)
    (hinj : ∀ a ∈ l₁, ∀ b ∈ l₁,
      toBN a.userId = toBN b.userId → a.config = b.config → a = b)
    (hperm : l₁.Perm l₂) :
    formatDripsReceivers l₂ = formatDripsReceivers l₁ := by
  have hmem₂ : ∀ x ∈ formatDripsReceivers l₂, x ∈ l₁ := by
    intro x hx
    exact hperm.symm.mem_iff.mp
      ((mem_keepFirsts l₂ x).mp ((formatDripsReceivers_perm_keepFirsts l₂).mem_iff.mp hx))
  have hmem₁ : ∀ x ∈ formatDripsReceivers l₁, x ∈ l₁ := by
    intro x hx
    exact (mem_keepFirsts l₁ x).mp ((formatDripsReceivers_perm_keepFirsts l₁).mem_iff.mp hx)
  have hp : (formatDripsReceivers l₂).Perm (formatDripsReceivers l₁) := by
    refine ((List.perm_insertionSort dripsLe (jsDedup l₂)).trans ?_).trans
      (List.perm_insertionSort dripsLe (jsDedup l₁)).symm
    exact jsDedup_perm_of_perm hperm.symm
  refine eq_of_perm_of_sorted_on (formatDripsReceivers l₂) (formatDripsReceivers l₁)
    hp (formatDripsReceivers_sorted l₂) (formatDripsReceivers_sorted l₁) ?_
  intro a ha b hb hab hba
  rw [dripsLe_iff] at hab hba
  have huid : toBN a.userId = toBN b.userId := by omega
  have hcfg : a.config = b.config := by omega
  exact hinj a (hmem₂ a ha) b (hmem₁ b hb) huid hcfg

/-- Witness for the amended C2 at a concrete list and permutation. -/
theorem claim_C2_amended_witness :
    formatDripsReceivers [⟨"1", 3⟩, ⟨"2", 1⟩] =
      formatDripsReceivers [⟨"2", 1⟩, ⟨"1", 3⟩] :=
  claim_C2_amended [⟨"2", 1⟩, ⟨"1", 3⟩] [⟨"1", 3⟩, ⟨"2", 1⟩]
    (by decide) (by decide) (by decide)

/-- Claim C3: canonicalization is idempotent, for drips receiver lists and
for splits receiver lists alike: canonicalizing the canonicalized output
returns it unchanged, since the output is duplicate-free (so the second
dedup is the identity) and sorted (so the second stable sort is the
identity). -/
theorem claim_C3 :
    (∀ l : List DripsReceiverStruct, WfDripsList l →
      formatDripsReceivers (formatDripsReceivers l) = formatDripsReceivers l) ∧
    (∀ l : List SplitsReceiverStruct, WfSplitsList l →
      formatSplitReceivers (formatSplitReceivers l) = formatSplitReceivers l) := by
  constructor
  · intro l hwf
    have hnd : (formatDripsReceivers l).Nodup :=
      ((formatDripsReceivers_perm_keepFirsts l).nodup_iff).mpr (nodup_keepFirsts l)
    calc formatDripsReceivers (formatDripsReceivers l)
        = List.insertionSort dripsLe (jsDedup (formatDripsReceivers l)) := rfl
      _ = List.insertionSort dripsLe (formatDripsReceivers l) := by
          rw [jsDedup_eq_keepFirsts, keepFirsts_eq_self_of_nodup _ hnd]
      _ = formatDripsReceivers l := (formatDripsReceivers_sorted l).insertionSort_eq
  · intro l hwf
    have hnd : (formatSplitReceivers l).Nodup :=
      ((formatSplitReceivers_perm_keepFirsts l).nodup_iff).mpr (nodup_keepFirsts l)
    calc formatSplitReceivers (formatSplitReceivers l)
        = List.insertionSort splitsLe (jsDedup (formatSplitReceivers l)) := rfl
      _ = List.insertionSort splitsLe (formatSplitReceivers l) := by
          rw [jsDedup_eq_keepFirsts, keepFirsts_eq_self_of_nodup _ hnd]
      _ = formatSplitReceivers l := (formatSplitReceivers_sorted l).insertionSort_eq

/-- Witness for C3 at concrete drips and splits inputs containing
duplicates. -/
theorem claim_C3_witness :
    formatDripsReceivers (formatDripsReceivers [⟨"9", 2⟩, ⟨"9", 2⟩, ⟨"4", 1⟩]) =
      formatDripsReceivers [⟨"9", 2⟩, ⟨"9", 2⟩, ⟨"4", 1⟩] ∧
    formatSplitReceivers (formatSplitReceivers [⟨"8", 3⟩, ⟨"8", 3⟩, ⟨"2", 6⟩]) =
      formatSplitReceivers [⟨"8", 3⟩, ⟨"8", 3⟩, ⟨"2", 6⟩] :=
  ⟨claim_C3.1 [⟨"9", 2⟩, ⟨"9", 2⟩, ⟨"4", 1⟩] (by decide),
   claim_C3.2 [⟨"8", 3⟩, ⟨"8", 3⟩, ⟨"2", 6⟩] (by decide)⟩

/-- Claim C4: canonicalizing
`[{userId:1,weight:5},{userId:1,weight:5},{userId:2,weight:1}]` yields
exactly the two entries for user 1 then user 2; in general splits
receivers are deduplicated by the pair `(userId, weight)` (structural
equality in this embedding, matching the strict equalities of the source)
with the first occurrence kept, then sorted ascending by the numeric user
ID only. -/
theorem claim_C4 :
    formatSplitReceivers [⟨"1", 5⟩, ⟨"1", 5⟩, ⟨"2", 1⟩] = [⟨"1", 5⟩, ⟨"2", 1⟩] ∧
    ∀ l : List SplitsReceiverStruct, WfSplitsList l →
      (formatSplitReceivers l).Perm (keepFirsts l) ∧
      (formatSplitReceivers l).Sorted (fun a b => toBN a.userId ≤ toBN b.userId) ∧
      ∀ x ∈ formatSplitReceivers l, x ∈ l := by
  refine ⟨by decide, ?_⟩
  intro l hwf
  refine ⟨formatSplitReceivers_perm_keepFirsts l, ?_, ?_⟩
  · exact (formatSplitReceivers_sorted l).imp (fun h => (splitsLe_iff _ _).mp h)
  · intro x hx
    exact (mem_keepFirsts l x).mp ((formatSplitReceivers_perm_keepFirsts l).mem_iff.mp hx)

/-- Witness for C4 at a concrete splits receiver list. -/
theorem claim_C4_witness :
    (formatSplitReceivers [⟨"10", 1⟩, ⟨"3", 2⟩]).Sorted (fun a b =>
      toBN a.userId ≤ toBN b.userId) :=
  (claim_C4.2 [⟨"10", 1⟩, ⟨"3", 2⟩] (by decide)).2.1

/-! ### Error model (`src/common/DripsError.ts`)

`DripsError` carries a `code` and a `context`; the human-readable
`message` strings are elided, since no claim is about them.  JS values
placed into contexts are embedded by the small universe `JsValue`;
a `null`/`undefined` field of the validated input is `Option.none` and
appears in a context as `JsValue.undef`. -/

inductive DripsErrorCode where
  | INVALID_ADDRESS
  | INVALID_ARGUMENT
  | MISSING_ARGUMENT
  | UNSUPPORTED_NETWORK
  | SUBGRAPH_QUERY_ERROR
  | INVALID_DRIPS_RECEIVER
  | INVALID_SPLITS_RECEIVER
deriving DecidableEq, Repr

/-- The unpacked drips receiver configuration validated by
`validateDripsReceiverConfig`; each field may be `null`/`undefined`.
Numeric fields are embedded as integers so that the `< 0` guards of the
source are meaningful. -/
structure DripsReceiverConfig where
  dripId : Option Int
  start : Option Int
  duration : Option Int
  amountPerSec : Option Int
deriving DecidableEq, Repr

/-- A drips receiver as handed to `validateDripsReceivers`, before any
validation: either field may be `null`/`undefined`. -/
structure RawDripsReceiver where
  userId : Option String
  config : Option DripsReceiverConfig
deriving DecidableEq, Repr

/-- A splits receiver as handed to `validateSplitsReceivers`. -/
structure RawSplitsReceiver where
  userId : Option String
  weight : Option Int
deriving DecidableEq, Repr

/-- JS values that the validators place into error contexts. -/
inductive JsValue where
  | undef
  | int (n : Int)
  | str (s : String)
  | cfg (c : DripsReceiverConfig)
  | dripsList (l : List RawDripsReceiver)
  | splitsList (l : List RawSplitsReceiver)
deriving DecidableEq, Repr

/-- The `context` payloads built by the `DripsErrors` factories. -/
inductive DripsErrorContext where
  | invalidAddress (address : String)
  | missingArgumentName (argName : String)
  | unsupportedChainId (chainId : Nat)
  | invalidArgument (name : String) (value : JsValue)
  | invalidProperty (name : String) (value : JsValue)
  | empty
deriving DecidableEq, Repr

structure DripsError where
  code : DripsErrorCode
  context : DripsErrorContext
deriving DecidableEq, Repr

namespace DripsErrors

def addressError (address : String) : DripsError :=
  ⟨.INVALID_ADDRESS, .invalidAddress address⟩

def argumentMissingError (argName : String) : DripsError :=
  ⟨.MISSING_ARGUMENT, .missingArgumentName argName⟩

def unsupportedNetworkError (chainId : Nat) : DripsError :=
  ⟨.UNSUPPORTED_NETWORK, .unsupportedChainId chainId⟩

def argumentError (argName : String) (argValue : JsValue) : DripsError :=
  ⟨.INVALID_ARGUMENT, .invalidArgument argName argValue⟩

def splitsReceiverError (invalidPropertyName : String) (invalidPropertyValue : JsValue) : DripsError :=
  ⟨.INVALID_SPLITS_RECEIVER, .invalidProperty invalidPropertyName invalidPropertyValue⟩

def dripsReceiverError (invalidPropertyName : String) (invalidPropertyValue : JsValue) : DripsError :=
  ⟨.INVALID_DRIPS_RECEIVER, .invalidProperty invalidPropertyName invalidPropertyValue⟩

/-- Modelled from the spec: the `dripsReceiverConfigError` factory used by
`validators.ts` is not among the sources (the `DripsError.ts` present
predates it).  Per the spec error taxonomy (section 7) it is the
drips-specific `InvalidReceiver` kind, carrying an
`invalidProperty(name, value)` context like the sibling
`dripsReceiverError` factory. -/
def dripsReceiverConfigError (invalidPropertyName : String) (invalidPropertyValue : JsValue) : DripsError :=
  ⟨.INVALID_DRIPS_RECEIVER, .invalidProperty invalidPropertyName invalidPropertyValue⟩

def subgraphQueryError : DripsError :=
  ⟨.SUBGRAPH_QUERY_ERROR, .empty⟩

end DripsErrors

/-! ### Validators (`src/common/validators.ts`) -/

def MAX_DRIPS_RECEIVERS : Nat := 100

def MAX_SPLITS_RECEIVERS : Nat := 200

/-- `isNullOrUndefined(x) || x < 0` on a nullable numeric field
(modelled from the spec for `internals.ts`, absent from the sources:
`isNullOrUndefined` tests `null`/`undefined`, here `Option.none`). -/
def isNullOrNeg (o : Option Int) : Bool :=
  match o with
  | none => true
  | some n => n < 0

/-- `isNullOrUndefined(x) || x <= 0` on a nullable numeric field. -/
def isNullOrNonpos (o : Option Int) : Bool :=
  match o with
  | none => true
  | some n => n ≤ 0

/-- The JS-value view of a nullable numeric field, as passed to an error
factory. -/
def optIntVal (o : Option Int) : JsValue :=
  match o with
  | none => .undef
  | some n => .int n

/-- The JS-value view of a nullable string field. -/
def optStrVal (o : Option String) : JsValue :=
  match o with
  | none => .undef
  | some s => .str s

/-- `validateDripsReceiverConfig`, verbatim from `validators.ts`: a missing
config is a missing argument; then `dripId`, `start`, `duration` must be
present and non-negative and `amountPerSec` present and positive, each
guard throwing a `dripsReceiverConfigError`.  Note that the `dripId` guard
reports the `start` property and the `start` value, exactly as the source
does on lines 29-35. -/
def validateDripsReceiverConfig (dripsReceiverConfig : Option DripsReceiverConfig) :
    Except DripsError Unit :=
  match dripsReceiverConfig with
  | none => .error (DripsErrors.argumentMissingError "dripsReceiverConfig")
  | some c =>
    if isNullOrNeg c.dripId then
      .error (DripsErrors.dripsReceiverConfigError "start" (optIntVal c.start))
    else if isNullOrNeg c.start then
      .error (DripsErrors.dripsReceiverConfigError "start" (optIntVal c.start))
    else if isNullOrNeg c.duration then
      .error (DripsErrors.dripsReceiverConfigError "duration" (optIntVal c.duration))
    else if isNullOrNonpos c.amountPerSec then
      .error (DripsErrors.dripsReceiverConfigError "amountPerSec" (optIntVal c.amountPerSec))
    else .ok ()

/-- The `receivers.forEach` body of `validateDripsReceivers`: a missing
`userId` or `config` is an invalid drips receiver, then the config is
validated; the first throw wins. -/
def validateEachDripsReceiver : List RawDripsReceiver → Except DripsError Unit
  | [] => .ok ()
  | r :: rest =>
    if r.userId.isNone then
      .error (DripsErrors.dripsReceiverError "userId" (optStrVal r.userId))
    else if r.config.isNone then
      .error (DripsErrors.dripsReceiverError "config" .undef)
    else
      match validateDripsReceiverConfig r.config with
      | .error e => .error e
      | .ok () => validateEachDripsReceiver rest

/-- `validateDripsReceivers`, verbatim: missing list, then count bound,
then per-receiver checks. -/
def validateDripsReceivers (receivers : Option (List RawDripsReceiver)) :
    Except DripsError Unit :=
  match receivers with
  | none => .error (DripsErrors.argumentMissingError "receivers")
  | some rs =>
    if rs.length > MAX_DRIPS_RECEIVERS then
      .error (DripsErrors.argumentError "receivers" (.dripsList rs))
    else validateEachDripsReceiver rs

/-- The `receivers.forEach` body of `validateSplitsReceivers`: the
`!userId` guard also fires on the empty string (JS falsiness), the weight
must be present, then positive. -/
def validateEachSplitsReceiver : List RawSplitsReceiver → Except DripsError Unit
  | [] => .ok ()
  | r :: rest =>
    if r.userId.getD "" = "" then
      .error (DripsErrors.splitsReceiverError "userId" (optStrVal r.userId))
    else
      match r.weight with
      | none => .error (DripsErrors.splitsReceiverError "weight" .undef)
      | some w =>
        if w ≤ 0 then .error (DripsErrors.splitsReceiverError "weight" (.int w))
        else validateEachSplitsReceiver rest

/-- `validateSplitsReceivers`, verbatim. -/
def validateSplitsReceivers (receivers : Option (List RawSplitsReceiver)) :
    Except DripsError Unit :=
  match receivers with
  | none => .error (DripsErrors.argumentMissingError "receivers")
  | some rs =>
    if rs.length > MAX_SPLITS_RECEIVERS then
      .error (DripsErrors.argumentError "receivers" (.splitsList rs))
    else validateEachSplitsReceiver rs

/-! ### Claims C5, C6, C10: validator boundaries -/

theorem validateDripsReceiverConfig_some_code (c : DripsReceiverConfig) (e : DripsError)
    (h : validateDripsReceiverConfig (some c) = .error e) :
    e.code = .INVALID_DRIPS_RECEIVER := by
  simp only [validateDripsReceiverConfig] at h
  split_ifs at h <;> first
    | (rw [← Except.error.inj h]; rfl)
    | exact absurd h (by simp)

theorem validateEachDripsReceiver_code :
    ∀ (l : List RawDripsReceiver) (e : DripsError),
      validateEachDripsReceiver l = .error e → e.code = .INVALID_DRIPS_RECEIVER := by
  intro l
  induction l with
  | nil => intro e h; simp [validateEachDripsReceiver] at h
  | cons r rest ih =>
    intro e h
    unfold validateEachDripsReceiver at h
    split_ifs at h with h1 h2
    · rw [← Except.error.inj h]; rfl
    · rw [← Except.error.inj h]; rfl
    · revert h
      match hres : validateDripsReceiverConfig r.config with
      | .error e' =>
        intro h
        rw [← Except.error.inj h]
        match hconf : r.config with
        | none => rw [hconf] at h2; exact (h2 rfl).elim
        | some c => exact validateDripsReceiverConfig_some_code c e' (hconf ▸ hres)
      | .ok u =>
        intro h
        exact ih e h

theorem validateEachSplitsReceiver_code :
    ∀ (l : List RawSplitsReceiver) (e : DripsError),
      validateEachSplitsReceiver l = .error e → e.code = .INVALID_SPLITS_RECEIVER := by
  intro l
  induction l with
  | nil => intro e h; simp [validateEachSplitsReceiver] at h
  | cons r rest ih =>
    intro e h
    unfold validateEachSplitsReceiver at h
    split_ifs at h with h1
    · rw [← Except.error.inj h]; rfl
    · revert h
      match r.weight with
      | none =>
        intro h
        rw [← Except.error.inj h]; rfl
      | some w =>
        simp only []
        by_cases hw : w ≤ 0
        · rw [if_pos hw]
          intro h
          rw [← Except.error.inj h]; rfl
        · rw [if_neg hw]
          intro h
          exact ih e h

/-- Claim C5: a drips receiver list of length 101 fails validation with an
`INVALID_ARGUMENT` (count exceeded) error while one of length 100 can only
fail with a receiver-level error, never the count error; symmetrically at
201/200 for splits receivers; and the configured maxima are exactly 100
drips receivers and 200 splits receivers. -/
theorem claim_C5 :
    MAX_DRIPS_RECEIVERS = 100 ∧ MAX_SPLITS_RECEIVERS = 200 ∧
    (∀ l : List RawDripsReceiver, l.length = 101 →
      validateDripsReceivers (some l) =
        .error (DripsErrors.argumentError "receivers" (.dripsList l)) ∧
      (DripsErrors.argumentError "receivers" (.dripsList l)).code = .INVALID_ARGUMENT) ∧
    (∀ l : List RawDripsReceiver, l.length = 100 → ∀ e : DripsError,
      validateDripsReceivers (some l) = .error e → e.code ≠ .INVALID_ARGUMENT) ∧
    (∀ l : List RawSplitsReceiver, l.length = 201 →
      validateSplitsReceivers (some l) =
        .error (DripsErrors.argumentError "receivers" (.splitsList l)) ∧
      (DripsErrors.argumentError "receivers" (.splitsList l)).code = .INVALID_ARGUMENT) ∧
    (∀ l : List RawSplitsReceiver, l.length = 200 → ∀ e : DripsError,
      validateSplitsReceivers (some l) = .error e → e.code ≠ .INVALID_ARGUMENT) := by
  refine ⟨rfl, rfl, ?_, ?_, ?_, ?_⟩
  · intro l hl
    refine ⟨?_, rfl⟩
    simp only [validateDripsReceivers]
    rw [if_pos (by rw [hl]; decide)]
  · intro l hl e he
    simp only [validateDripsReceivers] at he
    rw [if_neg (by rw [hl]; decide)] at he
    have := validateEachDripsReceiver_code l e he
    simp [this]
  · intro l hl
    refine ⟨?_, rfl⟩
    simp only [validateSplitsReceivers]
    rw [if_pos (by rw [hl]; decide)]
  · intro l hl e he
    simp only [validateSplitsReceivers] at he
    rw [if_neg (by rw [hl]; decide)] at he
    have := validateEachSplitsReceiver_code l e he
    simp [this]

set_option maxRecDepth 8192 in
/-- Witness for C5: a length-101 drips list and a length-201 splits list
are rejected with the count error, while a length-100 drips list with an
invalid first receiver fails with a non-count error. -/
theorem claim_C5_witness :
    validateDripsReceivers
        (some (List.replicate 101 (⟨some "1", some ⟨some 1, some 1, some 1, some 1⟩⟩ : RawDripsReceiver))) =
      .error (DripsErrors.argumentError "receivers"
        (.dripsList (List.replicate 101 ⟨some "1", some ⟨some 1, some 1, some 1, some 1⟩⟩))) ∧
    (⟨.INVALID_DRIPS_RECEIVER, .invalidProperty "userId" .undef⟩ : DripsError).code ≠
      .INVALID_ARGUMENT ∧
    validateSplitsReceivers
        (some (List.replicate 201 (⟨some "1", some 1⟩ : RawSplitsReceiver))) =
      .error (DripsErrors.argumentError "receivers"
        (.splitsList (List.replicate 201 ⟨some "1", some 1⟩))) :=
  ⟨(claim_C5.2.2.1 _ (by simp)).1,
   claim_C5.2.2.2.1 (List.replicate 100 ⟨none, none⟩) (by simp)
     ⟨.INVALID_DRIPS_RECEIVER, .invalidProperty "userId" .undef⟩ rfl,
   (claim_C5.2.2.2.2.1 _ (by simp)).1⟩

/-- Claim C6: a present drips receiver config whose `amountPerSec` is
missing or non-positive is rejected with an `INVALID_DRIPS_RECEIVER`
error (whatever the remaining fields hold, every reachable rejection of a
present config carries that code), while `amountPerSec = 1` together with
present non-negative `dripId`, `start` and `duration` passes validation. -/
theorem claim_C6 :
    (∀ c : DripsReceiverConfig, isNullOrNonpos c.amountPerSec = true →
      ∃ e : DripsError, validateDripsReceiverConfig (some c) = .error e ∧
        e.code = .INVALID_DRIPS_RECEIVER) ∧
    (∀ d s u : Int, 0 ≤ d → 0 ≤ s → 0 ≤ u →
      validateDripsReceiverConfig (some ⟨some d, some s, some u, some 1⟩) = .ok ()) := by
  constructor
  · intro c hc
    have hne : validateDripsReceiverConfig (some c) ≠ .ok () := by
      simp only [validateDripsReceiverConfig]
      split_ifs with h1 h2 h3 h4 <;> simp_all
    match hres : validateDripsReceiverConfig (some c) with
    | .error e => exact ⟨e, rfl, validateDripsReceiverConfig_some_code c e hres⟩
    | .ok u => exact absurd hres hne
  · intro d s u hd hs hu
    simp only [validateDripsReceiverConfig]
    rw [if_neg (by simp [isNullOrNeg]; omega), if_neg (by simp [isNullOrNeg]; omega),
      if_neg (by simp [isNullOrNeg]; omega), if_neg (by simp [isNullOrNonpos])]

/-- Witness for C6: `amountPerSec = 0` is rejected with the
drips-receiver error code, `amountPerSec = 1` is accepted. -/
theorem claim_C6_witness :
    (∃ e : DripsError,
      validateDripsReceiverConfig (some ⟨some 0, some 0, some 0, some 0⟩) = .error e ∧
        e.code = .INVALID_DRIPS_RECEIVER) ∧
    validateDripsReceiverConfig (some ⟨some 0, some 0, some 0, some 1⟩) = .ok () :=
  ⟨claim_C6.1 ⟨some 0, some 0, some 0, some 0⟩ (by decide),
   claim_C6.2 0 0 0 (by decide) (by decide) (by decide)⟩

/-- Claim C10: when the `dripId` field of a present drips receiver config
is missing or negative, the thrown error's context carries the property
name `start` together with the value of the `start` field (the source's
`dripId` guard passes `nameOf({ start })` and `start` to the factory),
not the offending `dripId` field. -/
theorem claim_C10 (c : DripsReceiverConfig) (h : isNullOrNeg c.dripId = true) :
    validateDripsReceiverConfig (some c) =
      .error ⟨.INVALID_DRIPS_RECEIVER, .invalidProperty "start" (optIntVal c.start)⟩ := by
  simp only [validateDripsReceiverConfig]
  rw [if_pos h]
  rfl

/-- Witness for C10: a config with missing `dripId` and `start = 7` is
rejected with context naming `start` and carrying the value 7. -/
theorem claim_C10_witness :
    validateDripsReceiverConfig (some ⟨none, some 7, some 0, some 1⟩) =
      .error ⟨.INVALID_DRIPS_RECEIVER, .invalidProperty "start" (.int 7)⟩ :=
  claim_C10 ⟨none, some 7, some 0, some 1⟩ (by decide)

/-! ### Claim C7: unique senders streaming to a receiver
(`DripsSubgraphClient.getUsersStreamingToUser`) -/

/-- A `DripsReceiverSeenEvent` DTO as mapped by
`mapDripsReceiverSeenEventToDto`: all numeric fields are `bigint`s,
embedded as `Nat`. -/
structure DripsReceiverSeenEvent where
  senderUserId : Nat
  receiverUserId : Nat
  config : Nat
  blockTimestamp : Nat
deriving DecidableEq, Repr

/-- The pure core of `DripsSubgraphClient.getUsersStreamingToUser`, applied
to the already-fetched `DripsReceiverSeenEvent`s: the `reduce` that
collects `senderUserId`s, pushing one only when no strictly (`===`) equal
bigint — value equality, here `Nat` equality — is present yet. -/
def getUsersStreamingToUser (dripReceiverSeenEvents : List DripsReceiverSeenEvent) : List Nat :=
  dripReceiverSeenEvents.foldl
    (fun unique o => if o.senderUserId ∈ unique then unique else unique ++ [o.senderUserId]) []

/-- Claim C7: deriving the unique senders keeps each `senderUserId`
exactly once, first occurrence winning, in order of first discovery:
the result is precisely `keepFirsts` of the sender IDs in event order,
it has no duplicates, and it contains exactly the sender IDs seen. -/
theorem claim_C7 (events : List DripsReceiverSeenEvent) :
    getUsersStreamingToUser events = keepFirsts (events.map (fun o => o.senderUserId)) ∧
    (getUsersStreamingToUser events).Nodup ∧
    ∀ s : Nat, s ∈ getUsersStreamingToUser events ↔
      s ∈ events.map (fun o => o.senderUserId) := by
  have hfold : getUsersStreamingToUser events =
      jsDedup (events.map (fun o => o.senderUserId)) := by
    unfold getUsersStreamingToUser jsDedup
    rw [List.foldl_map]
    rfl
  refine ⟨?_, ?_, ?_⟩
  · rw [hfold, jsDedup_eq_keepFirsts]
  · rw [hfold]; exact jsDedup_nodup _
  · intro s; rw [hfold]; exact mem_jsDedup _ s

/-! ### Claim C8: validation precedes all other work in `setDrips`/`setSplits` -/

/-- `validateAddress` from `validators.ts`, with the external
`ethers.utils.isAddress` predicate (a library function, out of scope per
the spec) taken as a parameter. -/
def validateAddress (isAddress : String → Bool) (address : String) : Except DripsError Unit :=
  if isAddress address then .ok () else .error (DripsErrors.addressError address)

/-- Modelled from the spec: the packing of a receiver configuration into a
single 256-bit integer (`Utils.DripsReceiverConfiguration.toUint256`,
absent from the sources; spec section 3 requires a lossless packing of
`dripId`, `amountPerSec`, `start`, `duration`).  Missing fields default to
0; `setDrips` only packs configs that already passed validation, where all
fields are present. -/
def packDripsConfig (c : DripsReceiverConfig) : Nat :=
  (c.dripId.getD 0).toNat * 2 ^ 224 + (c.amountPerSec.getD 0).toNat * 2 ^ 64 +
    (c.start.getD 0).toNat * 2 ^ 32 + (c.duration.getD 0).toNat

/-- The packed on-chain view of a raw drips receiver, as submitted by the
client after validation. -/
def toDripsReceiverStruct (r : RawDripsReceiver) : DripsReceiverStruct :=
  { userId := r.userId.getD "",
    config := packDripsConfig (r.config.getD ⟨none, none, none, none⟩) }

/-- The on-chain view of a raw splits receiver. -/
def toSplitsReceiverStruct (r : RawSplitsReceiver) : SplitsReceiverStruct :=
  { userId := r.userId.getD "", weight := (r.weight.getD 0).toNat }

/-- The argument tuple of the single
`#addressAppContract.setDrips(erc20TokenAddress, formattedCurrentReceivers,
balanceDelta, formattedNewReceivers)` contract interaction. -/
structure SetDripsCall where
  tokenAddress : String
  currentReceivers : List DripsReceiverStruct
  balanceDelta : Int
  newReceivers : List DripsReceiverStruct
deriving DecidableEq, Repr

/-- The argument of the single `#addressAppContract.setSplits` contract
interaction. -/
structure SetSplitsCall where
  receivers : List SplitsReceiverStruct
deriving DecidableEq, Repr

/-- The validation prefix of `AddressAppClient.setDrips`, in source order:
`validateAddress(erc20TokenAddress)`, `validateDripsReceivers(newReceivers)`,
`validateDripsReceivers(currentReceivers)`. -/
def setDripsValidation (isAddress : String → Bool) (erc20TokenAddress : String)
    (currentReceivers newReceivers : Option (List RawDripsReceiver)) :
    Except DripsError Unit := do
  validateAddress isAddress erc20TokenAddress
  validateDripsReceivers newReceivers
  validateDripsReceivers currentReceivers

/-- `AddressAppClient.setDrips`: the three synchronous validations run
first and throw before anything else happens; only then are both lists
canonicalized and the single contract call issued.  The returned
`SetDripsCall` embeds that contract interaction. -/
def setDrips (isAddress : String → Bool) (erc20TokenAddress : String)
    (currentReceivers newReceivers : Option (List RawDripsReceiver))
    (balanceDelta : Int) : Except DripsError SetDripsCall := do
  validateAddress isAddress erc20TokenAddress
  validateDripsReceivers newReceivers
  validateDripsReceivers currentReceivers
  pure { tokenAddress := erc20TokenAddress,
         currentReceivers := formatDripsReceivers
           ((currentReceivers.getD []).map toDripsReceiverStruct),
         balanceDelta := balanceDelta,
         newReceivers := formatDripsReceivers
           ((newReceivers.getD []).map toDripsReceiverStruct) }

/-- `AddressAppClient.setSplits`: `validateSplitsReceivers(receivers)` runs
first; only then is the list canonicalized and the contract call issued. -/
def setSplits (receivers : Option (List RawSplitsReceiver)) : Except DripsError SetSplitsCall := do
  validateSplitsReceivers receivers
  pure { receivers := formatSplitReceivers ((receivers.getD []).map toSplitsReceiverStruct) }

/-- Claim C8: every error of `setDrips` (resp. `setSplits`) is exactly an
error of its leading validation sequence — validation happens
synchronously at input inspection, so an error means no canonicalization
result and no contract interaction were ever produced and no state was
touched — and when validation passes, the result is exactly the single
contract call on the canonicalized lists. -/
theorem claim_C8 (isAddress : String → Bool) (tok : String)
    (cur new : Option (List RawDripsReceiver)) (delta : Int)
    (spl : Option (List RawSplitsReceiver)) :
    (∀ e : DripsError, setDrips isAddress tok cur new delta = .error e ↔
      setDripsValidation isAddress tok cur new = .error e) ∧
    (setDripsValidation isAddress tok cur new = .ok () →
      setDrips isAddress tok cur new delta = .ok
        { tokenAddress := tok,
          currentReceivers := formatDripsReceivers ((cur.getD []).map toDripsReceiverStruct),
          balanceDelta := delta,
          newReceivers := formatDripsReceivers ((new.getD []).map toDripsReceiverStruct) }) ∧
    (∀ e : DripsError, setSplits spl = .error e ↔ validateSplitsReceivers spl = .error e) ∧
    (validateSplitsReceivers spl = .ok () →
      setSplits spl = .ok
        { receivers := formatSplitReceivers ((spl.getD []).map toSplitsReceiverStruct) }) := by
  refine ⟨?_, ?_, ?_, ?_⟩
  · intro e
    unfold setDrips setDripsValidation
    cases h1 : validateAddress isAddress tok with
    | error e1 => simp [h1, Bind.bind, Except.bind]
    | ok u1 =>
      cases u1
      cases h2 : validateDripsReceivers new with
      | error e2 => simp [h1, h2, Bind.bind, Except.bind]
      | ok u2 =>
        cases u2
        cases h3 : validateDripsReceivers cur with
        | error e3 => simp [h1, h2, h3, Bind.bind, Except.bind]
        | ok u3 => cases u3; simp [h1, h2, h3, Bind.bind, Except.bind, pure, Except.pure]
  · intro hok
    unfold setDripsValidation at hok
    unfold setDrips
    cases h1 : validateAddress isAddress tok with
    | error e1 => rw [h1] at hok; simp [Bind.bind, Except.bind] at hok
    | ok u1 =>
      cases u1
      rw [h1] at hok
      cases h2 : validateDripsReceivers new with
      | error e2 => rw [h2] at hok; simp [Bind.bind, Except.bind] at hok
      | ok u2 =>
        cases u2
        rw [h2] at hok
        cases h3 : validateDripsReceivers cur with
        | error e3 => rw [h3] at hok; simp [Bind.bind, Except.bind] at hok
        | ok u3 => cases u3; simp [h1, h2, h3, Bind.bind, Except.bind, pure, Except.pure]
  · intro e
    unfold setSplits
    cases h1 : validateSplitsReceivers spl with
    | error e1 => simp [h1, Bind.bind, Except.bind]
    | ok u1 => cases u1; simp [h1, Bind.bind, Except.bind, pure, Except.pure]
  · intro hok
    unfold setSplits
    rw [hok]
    simp [Bind.bind, Except.bind, pure, Except.pure]

/-- Witness for C8: with a trivially accepting address predicate and two
empty receiver lists, validation passes and `setDrips` issues exactly the
contract call with two empty canonicalized lists; and `setSplits` on one
valid receiver issues its call. -/
theorem claim_C8_witness :
    setDrips (fun _ => true) "0xtoken" (some []) (some []) 0 =
      .ok { tokenAddress := "0xtoken", currentReceivers := [],
            balanceDelta := 0, newReceivers := [] } ∧
    setSplits (some [⟨some "1", some 4⟩]) =
      .ok { receivers := [⟨"1", 4⟩] } := by
  constructor
  · exact (claim_C8 (fun _ => true) "0xtoken" (some []) (some []) 0 (some [])).2.1 rfl
  · exact (claim_C8 (fun _ => true) "0xtoken" (some []) (some []) 0
      (some [⟨some "1", some 4⟩])).2.2.2 rfl

/-! ### Claim C9: `AccountEstimator.estimate` is snapshot-preserving and
fetch-free; `refreshAccount` replaces the snapshot wholly

The estimator engine (`EstimatorEngine.estimateAccount`), the account
service (`AccountService.fetchAccount`) and the cycle calculator
(`Utils.Cycle.getInfo`) are not among the sources; modelled from the spec
(sections 4.2, 4.4, 4.5) they are side-effect-free computations, taken
here as function parameters over abstract `Account`, `Estimate` and
squeeze-event types.  Method bodies are translated into explicit state
passing plus a trace of the account-service calls they perform. -/

/-- The protocol cycle descriptor returned by `Utils.Cycle.getInfo`. -/
structure DripsCycle where
  currentCycleStartDate : Nat
  nextCycleStartDate : Nat
  cycleDurationSecs : Nat
deriving DecidableEq, Repr

/-- A call observable at the Account Service boundary. -/
inductive ServiceCall where
  | fetchAccount (userId : String) (chainId : Nat)
deriving DecidableEq, Repr

/-- The private state of an `AccountEstimator`: `#userId`, `#chainId` and
the owned `#account` snapshot. -/
structure AccountEstimator (Account : Type) where
  userId : String
  chainId : Nat
  account : Account
deriving DecidableEq, Repr

/-- `AccountEstimator.refreshAccount`:
`this.#account = await this.#accountService.fetchAccount(this.#userId, this.#chainId)` —
one service call, and the snapshot field is assigned the fetched value. -/
def AccountEstimator.refreshAccount {Account : Type}
    (fetchAccount : String → Nat → Account)
    (self : AccountEstimator Account) :
    AccountEstimator Account × List ServiceCall :=
  ({ self with account := fetchAccount self.userId self.chainId },
   [ServiceCall.fetchAccount self.userId self.chainId])

/-- `AccountEstimator.estimate(excludingSqueezes?)`:
`const currentCycle = Utils.Cycle.getInfo(this.chainId); return
this.#estimatorEngine.estimateAccount(this.#account, currentCycle,
excludingSqueezes)` — the body contains no assignment and no service
call. -/
def AccountEstimator.estimate {Account Estimate Squeeze : Type}
    (estimateAccount : Account → DripsCycle → Option (List Squeeze) → Estimate)
    (getCycleInfo : Nat → DripsCycle)
    (self : AccountEstimator Account)
    (excludingSqueezes : Option (List Squeeze)) :
    AccountEstimator Account × List ServiceCall × Estimate :=
  (self, [],
   estimateAccount self.account (getCycleInfo self.chainId) excludingSqueezes)

/-- Run a whole sequence of `estimate` calls, threading the state and
collecting the service-call trace and the produced estimates. -/
def AccountEstimator.runEstimates {Account Estimate Squeeze : Type}
    (estimateAccount : Account → DripsCycle → Option (List Squeeze) → Estimate)
    (getCycleInfo : Nat → DripsCycle) :
    AccountEstimator Account → List (Option (List Squeeze)) →
      AccountEstimator Account × List ServiceCall × List Estimate
  | self, [] => (self, [], [])
  | self, excl :: rest =>
    let step := AccountEstimator.estimate estimateAccount getCycleInfo self excl
    let next := AccountEstimator.runEstimates estimateAccount getCycleInfo step.1 rest
    (next.1, step.2.1 ++ next.2.1, step.2.2 :: next.2.2)

/-- Claim C9: any number of `estimate` calls leaves the stored account
snapshot (indeed the whole estimator state) unchanged, performs no
Account Service call, and deterministically returns the same estimate
each time it is given the same exclusions; only `refreshAccount` changes
the snapshot, and it replaces it wholly with the fetched value — the new
snapshot does not depend on the previous one. -/
theorem claim_C9 {Account Estimate Squeeze : Type}
    (estimateAccount : Account → DripsCycle → Option (List Squeeze) → Estimate)
    (getCycleInfo : Nat → DripsCycle)
    (fetchAccount : String → Nat → Account)
    (self : AccountEstimator Account)
    (excls : List (Option (List Squeeze))) :
    AccountEstimator.runEstimates estimateAccount getCycleInfo self excls =
      (self, [],
        excls.map (fun excl =>
          estimateAccount self.account (getCycleInfo self.chainId) excl)) ∧
    (AccountEstimator.refreshAccount fetchAccount self).1.account =
      fetchAccount self.userId self.chainId ∧
    (AccountEstimator.refreshAccount fetchAccount self).2 =
      [ServiceCall.fetchAccount self.userId self.chainId] ∧
    ∀ previous : Account,
      (AccountEstimator.refreshAccount fetchAccount
        { self with account := previous }).1.account =
        fetchAccount self.userId self.chainId := by
  refine ⟨?_, rfl, rfl, fun previous => rfl⟩
  induction excls with
  | nil => rfl
  | cons excl rest ih =>
    simp only [AccountEstimator.runEstimates, AccountEstimator.estimate, ih, List.map,
      List.nil_append]
